import Mathlib

/-
Verification of the keyed resource pool ("PlaywrightPool") and the per-client
subscription reconciler of the real-time crypto pricing platform.

The model is a shallow embedding of `server/src/playwright/PlaywrightPool.ts`
and of the `reconcile` closure in `server/src/rpc/priceService.impl.ts`.

Conventions of the embedding:
* JS `Map`s are association lists in insertion order (`mapGet`, `mapSet`,
  `mapDelete` mirror `Map.get` / `Map.set` / `Map.delete`; JS maps never hold
  a key twice, and `mapSet` keeps the position of an existing key).
* JS `Set`s of subscriber callbacks are duplicate-free lists in insertion
  order; a listener is identified by `Listener.id`, and `Listener.throws`
  records whether invoking it raises an exception.
* `Date.now()` is the `now` field of the state; a single state transition
  reads one instant, exactly as one JS macrotask does.
* The asynchronous `openPage` is split into its synchronous prefix
  (`openPageStart`: the capacity/eviction check of lines 167-188 plus the
  creation of a fresh page) and a later completion event (`openDoneOk` /
  `openDoneFail`, the `.then` / `.catch` / `.finally` chain of lines 485-498).
  The ghost fields `inFlight` / `openedPages` record which pages are being
  opened / have been created and not closed; the code itself tracks only the
  scalar `inFlightOpens`, which is what all guards read.
* `setTimeout` handles are entries of `pendingTimers` (id, symbol, deadline);
  `clearTimeout` removes the entry with the stored id.
* The mutually recursive `enqueueOpen` / `drainQueue` pair is bounded by an
  explicit fuel argument; the fuel only caps the number of loop iterations,
  every theorem below supplies ample fuel for its finite trace.
-/

namespace PricePool

/-- A subscriber callback (`Subscriber` in the source): identity is object
identity, modelled by `id`; `throws` says whether calling it raises. -/
structure Listener where
  id : Nat
  throws : Bool
deriving DecidableEq

/-- A queued open job, `{ symbol, priority, enqueuedAt }` (line 26). -/
structure Job where
  symbol : String
  priority : Nat
  enqueuedAt : Nat
deriving DecidableEq

/-- The mutable state of one `PlaywrightPool` instance (fields of lines
16-33 and 39), plus the ghost bookkeeping described in the header. -/
structure PoolState where
  symbolToPage : List (String × Nat)
  symbolToSubs : List (String × List Listener)
  symbolToIdleTimer : List (String × Nat)
  symbolToLast : List (String × String)
  lastUsed : List (String × Nat)
  warmUntil : List (String × Nat)
  queuedJobs : List (String × Job)
  q0 : List String
  q1 : List String
  q2 : List String
  inFlightOpens : Nat
  openConcurrency : Nat
  maxPages : Nat
  maxQueue : Nat
  idleMs : Nat
  now : Nat
  inFlight : List (String × Nat)
  openedPages : List (Nat × String)
  pendingTimers : List (Nat × String × Nat)
  nextTimerId : Nat
  nextPageId : Nat
deriving DecidableEq

/-- The `symbol.toUpperCase()` normalization (kernel-reducible form of
`String.toUpper`). -/
def upcase (s : String) : String := ⟨s.data.map Char.toUpper⟩

/-- The `String(price).trim()` call of line 214 (kernel-reducible form of
`String.trim`): strip whitespace from both ends. -/
def trimStr (s : String) : String :=
  ⟨((s.data.dropWhile Char.isWhitespace).reverse.dropWhile
      Char.isWhitespace).reverse⟩

/-- JS `Map.get`. -/
def mapGet {α : Type} : List (String × α) → String → Option α
  | [], _ => none
  | (k1, v) :: m, k => if k1 = k then some v else mapGet m k

/-- JS `Map.set`: replace in place when the key exists, else append. -/
def mapSet {α : Type} : List (String × α) → String → α → List (String × α)
  | [], k, v => [(k, v)]
  | (k1, v1) :: m, k, v =>
    if k1 = k then (k, v) :: m else (k1, v1) :: mapSet m k v

/-- JS `Map.delete` (JS maps hold a key at most once, so filtering is it). -/
def mapDelete {α : Type} (m : List (String × α)) (k : String) :
    List (String × α) :=
  m.filter (fun p => p.1 != k)

/-- The `Array.indexOf` plus `splice(i, 1)` step: drop the first occurrence only. -/
def removeFirst : List String → String → List String
  | [], _ => []
  | x :: xs, a => if x = a then xs else x :: removeFirst xs a

/-- Number of occurrences of a symbol in one queue bucket. -/
def countOcc : List String → String → Nat
  | [], _ => 0
  | x :: xs, a => (if x = a then 1 else 0) + countOcc xs a

/-- The count `this.symbolToSubs.get(sym)?.size ?? 0`. -/
def subsCount (s : PoolState) (sym : String) : Nat :=
  ((mapGet s.symbolToSubs sym).getD []).length

/-- The test `subs == null || subs.size === 0` (line 175). -/
def subsEmpty (s : PoolState) (sym : String) : Bool :=
  match mapGet s.symbolToSubs sym with
  | none => true
  | some l => l.isEmpty

/-- The read `lastUsed.get(sym) ?? 0` (line 174). -/
def lastD (s : PoolState) (sym : String) : Nat :=
  (mapGet s.lastUsed sym).getD 0

/-- Function `computePriority` (lines 434-440). -/
def computePriority (s : PoolState) (sym : String) : Nat :=
  if 0 < subsCount s sym then 0
  else if s.now < (mapGet s.warmUntil sym).getD 0 then 1
  else 2

/-- The value `Math.min(requestedPriority, this.computePriority(symbol))` (line 408). -/
def effPriority (s : PoolState) (sym : String) (requested : Nat) : Nat :=
  min requested (computePriority s sym)

/-- Function `totalQueued` (lines 442-446). -/
def totalQueued (s : PoolState) : Nat :=
  s.q0.length + s.q1.length + s.q2.length

/-- Read of bucket `queueByPriority[p]` (the array literal of line 27). -/
def getBucket (s : PoolState) : Nat → List String
  | 0 => s.q0
  | 1 => s.q1
  | _ => s.q2

/-- The push `queueByPriority[p].push(symbol)`; `p` is always 0, 1 or 2. -/
def pushBucket (s : PoolState) (p : Nat) (sym : String) : PoolState :=
  match p with
  | 0 => { s with q0 := s.q0 ++ [sym] }
  | 1 => { s with q1 := s.q1 ++ [sym] }
  | _ => { s with q2 := s.q2 ++ [sym] }

/-- The promotion splice of lines 414-417: remove the first occurrence of
the symbol from every bucket. -/
def spliceAll (s : PoolState) (sym : String) : PoolState :=
  { s with
    q0 := removeFirst s.q0 sym,
    q1 := removeFirst s.q1 sym,
    q2 := removeFirst s.q2 sym }

/-- Function `nextJobSymbol` (lines 448-454): shift the head of the first nonempty
bucket, in priority order 0, 1, 2. -/
def nextJobSymbol (s : PoolState) : Option String × PoolState :=
  match s.q0 with
  | x :: xs => (some x, { s with q0 := xs })
  | [] =>
    match s.q1 with
    | y :: ys => (some y, { s with q1 := ys })
    | [] =>
      match s.q2 with
      | z :: zs => (some z, { s with q2 := zs })
      | [] => (none, s)

/-- The comparison `n < oldest` where `oldest` starts as `Number.POSITIVE_INFINITY`
(line 171), modelled as `none`. -/
def ltOpt (n : Nat) : Option Nat → Bool
  | none => true
  | some m => decide (n < m)

/-- The victim scan of lines 170-179, folding over the open-page table in
insertion order with the running `(victim, oldest)` pair. -/
def pickVictimAux (s : PoolState) :
    List (String × Nat) → Option String → Option Nat → Option String
  | [], victim, _ => victim
  | (sym, _) :: rest, victim, oldest =>
    if subsEmpty s sym && ltOpt (lastD s sym) oldest then
      pickVictimAux s rest (some sym) (some (lastD s sym))
    else
      pickVictimAux s rest victim oldest

/-- The eviction victim chosen by `openPage` when at capacity. -/
def pickVictim (s : PoolState) : Option String :=
  pickVictimAux s s.symbolToPage none none

/-- Function `closePage` (lines 502-512): close the page held in the table (ghost:
drop it from `openedPages`), then delete the symbol from `symbolToPage`,
`symbolToIdleTimer` and `lastUsed`. `symbolToLast` is untouched. -/
def closePage (s : PoolState) (sym : String) : PoolState :=
  let s1 :=
    match mapGet s.symbolToPage sym with
    | some pid => { s with openedPages := s.openedPages.filter (fun q => q.1 != pid) }
    | none => s
  { s1 with
    symbolToPage := mapDelete s1.symbolToPage sym,
    symbolToIdleTimer := mapDelete s1.symbolToIdleTimer sym,
    lastUsed := mapDelete s1.lastUsed sym }

/-- The synchronous prefix of `openPage` (lines 165-190): the capacity
guard with LRU eviction, then `context.newPage()` creating a fresh page
(ghost: recorded in `inFlight` and `openedPages`). The rest of `openPage`
is asynchronous and lands in `openDoneOk` / `openDoneFail`. -/
def openPageStart (s : PoolState) (sym : String) : PoolState :=
  let s1 :=
    if s.maxPages ≤ s.symbolToPage.length then
      match pickVictim s with
      | some victim => closePage s victim
      | none => s
    else s
  { s1 with
    inFlight := s1.inFlight ++ [(sym, s1.nextPageId)],
    openedPages := s1.openedPages ++ [(s1.nextPageId, sym)],
    nextPageId := s1.nextPageId + 1 }

/-- The queue-manipulation body of `enqueueOpen` (lines 405-430), without
the trailing `drainQueue` call; the boolean tells whether line 431 runs
(only the fresh-enqueue path reaches it). -/
def enqueueCore (sym : String) (requested : Nat) (s : PoolState) :
    PoolState × Bool :=
  if (mapGet s.symbolToPage sym).isSome then (s, false)
  else
    let priority := effPriority s sym requested
    match mapGet s.queuedJobs sym with
    | some job =>
      if priority < job.priority then
        let s1 := { s with
          queuedJobs := mapSet s.queuedJobs sym { job with priority := priority } }
        (pushBucket (spliceAll s1 sym) priority sym, false)
      else (s, false)
    | none =>
      if s.maxQueue ≤ totalQueued s then (s, false)
      else
        (pushBucket
          { s with queuedJobs := mapSet s.queuedJobs sym ⟨sym, priority, s.now⟩ }
          priority sym, true)

/-- The `drainQueue` loop (lines 456-500): while in-flight opens are below
the concurrency ceiling, dequeue, cancel stale Cold jobs, recycle timed-out
jobs at top priority, otherwise start the open. In the timeout branch the
nested `this.enqueueOpen(sym, 0)` call (line 477) is inlined so that the
recursion is structural on the fuel; `enqueueOpen` below is exactly the
inlined expression. -/
def drainQueue : Nat → PoolState → PoolState
  | 0, s => s
  | Nat.succ fuel, s =>
    if s.inFlightOpens < s.openConcurrency then
      match nextJobSymbol s with
      | (none, _) => s
      | (some sym, s1) =>
        match mapGet s1.queuedJobs sym with
        | none => drainQueue fuel s1
        | some job =>
          let pri := computePriority s1 sym
          if job.priority < pri ∧ pri = 2 then
            drainQueue fuel { s1 with queuedJobs := mapDelete s1.queuedJobs sym }
          else if 10000 < s1.now - job.enqueuedAt then
            let s2 := { s1 with queuedJobs := mapDelete s1.queuedJobs sym }
            let c := enqueueCore sym 0 s2
            drainQueue fuel (if c.2 then drainQueue fuel c.1 else c.1)
          else
            drainQueue fuel
              (openPageStart
                { s1 with
                  queuedJobs := mapDelete s1.queuedJobs sym,
                  inFlightOpens := s1.inFlightOpens + 1 } sym)
    else s

/-- Function `enqueueOpen` (lines 405-432): the queue manipulation followed
by the `drainQueue` call of line 431 on the fresh-enqueue path. -/
def enqueueOpen (fuel : Nat) (sym : String) (requested : Nat)
    (s : PoolState) : PoolState :=
  let c := enqueueCore sym requested s
  if c.2 then drainQueue fuel c.1 else c.1

/-- The `.catch` handler of a failed open (lines 490-494): re-enqueue at
requested priority 1 when the symbol still has a subscriber. -/
def catchHandler (fuel : Nat) (sym : String) (s : PoolState) : PoolState :=
  if 0 < subsCount s sym then enqueueOpen fuel sym 1 s else s

/-- Successful completion of an in-flight `openPage` (lines 397-398 set the
table and `lastUsed`; the `.finally` of lines 495-498 decrements the
in-flight count and re-drains). -/
def openDoneOk (fuel : Nat) (sym : String) (pid : Nat) (s : PoolState) :
    PoolState :=
  let s1 := { s with
    inFlight := s.inFlight.filter (fun q => q.2 != pid),
    symbolToPage := mapSet s.symbolToPage sym pid,
    lastUsed := mapSet s.lastUsed sym s.now }
  drainQueue fuel { s1 with inFlightOpens := s1.inFlightOpens - 1 }

/-- Failed completion of an in-flight `openPage` (failure modelled at page
creation), running the `.catch` then the `.finally` of lines 490-498. -/
def openDoneFail (fuel : Nat) (sym : String) (pid : Nat) (s : PoolState) :
    PoolState :=
  let s1 := { s with
    inFlight := s.inFlight.filter (fun q => q.2 != pid),
    openedPages := s.openedPages.filter (fun q => q.1 != pid) }
  let s2 := catchHandler fuel sym s1
  drainQueue fuel { s2 with inFlightOpens := s2.inFlightOpens - 1 }

/-- Function `subscribe` (lines 131-150). The screener fast-path of lines 140-148 is
a detached async network task; its eventual effect is a push event and is
modelled by `notifyPrice`, not by this synchronous transition. -/
def subscribe (fuel : Nat) (k : String) (onData : Listener) (s : PoolState) :
    PoolState :=
  let upper := upcase k
  let subs := (mapGet s.symbolToSubs upper).getD []
  let subs1 := if subs.contains onData then subs else subs ++ [onData]
  let s1 := { s with
    symbolToSubs := mapSet s.symbolToSubs upper subs1,
    lastUsed := mapSet s.lastUsed upper s.now,
    pendingTimers :=
      match mapGet s.symbolToIdleTimer upper with
      | some tid => s.pendingTimers.filter (fun t => t.1 != tid)
      | none => s.pendingTimers }
  if (mapGet s1.symbolToPage upper).isSome then s1
  else enqueueOpen fuel upper 0 s1

/-- Function `unsubscribe` (lines 152-163). When the set size hits zero the warm
window is recorded and an idle-close timer is scheduled; note the code
tests `subs.size === 0` after the delete, whether or not the delete
removed anything. -/
def unsubscribe (k : String) (onData : Listener) (s : PoolState) : PoolState :=
  let upper := upcase k
  match mapGet s.symbolToSubs upper with
  | none => s
  | some subs =>
    let subs1 := subs.filter (fun x => x != onData)
    let s1 := { s with symbolToSubs := mapSet s.symbolToSubs upper subs1 }
    if subs1.length = 0 then
      { s1 with
        warmUntil := mapSet s1.warmUntil upper (s1.now + s1.idleMs),
        pendingTimers :=
          s1.pendingTimers ++ [(s1.nextTimerId, upper, s1.now + s1.idleMs)],
        symbolToIdleTimer := mapSet s1.symbolToIdleTimer upper s1.nextTimerId,
        nextTimerId := s1.nextTimerId + 1 }
    else s1

/-- The fanout `subs.forEach((fn) => fn(data))` (line 224): JS `Set.forEach` stops and
propagates as soon as a callback throws. Returns the ids of the listeners
that were invoked and whether an exception escaped. -/
def forEachDeliver : List Listener → List Nat × Bool
  | [] => ([], false)
  | l :: rest =>
    if l.throws then ([l.id], true)
    else
      let r := forEachDeliver rest
      (l.id :: r.1, r.2)

/-- The exposed `notifyPrice` push handler (lines 213-226): ignore blank
values, overwrite the last value and `lastUsed`, then fan out. Returns the
new state, the invoked listener ids, and whether a listener exception
escaped the handler. -/
def notifyPrice (s : PoolState) (symbol : String) (price : String) :
    PoolState × List Nat × Bool :=
  if trimStr price = "" then (s, [], false)
  else
    let s1 := { s with
      symbolToLast := mapSet s.symbolToLast symbol price,
      lastUsed := mapSet s.lastUsed symbol s.now }
    match mapGet s1.symbolToSubs symbol with
    | none => (s1, [], false)
    | some subs =>
      let r := forEachDeliver subs
      (s1, r.1, r.2)

/-- Function `getLastPrice` (lines 514-519). -/
def getLastPrice (s : PoolState) (symbol : String) : Option String :=
  mapGet s.symbolToLast (upcase symbol)

/-- Result of one `reconcile` run (priceService.impl.ts lines 117-149):
the new ActiveHandlers map, the `pool.subscribe` calls issued (symbol and
freshly created handler id, in order), the `pool.unsubscribe` calls issued
(symbol and recorded handler id, in order), and the next fresh handler id. -/
structure RecOut where
  handlers : List (String × Nat)
  subCalls : List (String × Nat)
  unsubCalls : List (String × Nat)
  nextH : Nat
deriving DecidableEq

/-- First loop of `reconcile` (lines 120-137): for each desired symbol not
in ActiveHandlers, create a handler, record it, and call `pool.subscribe`. -/
def reconcileAdd : List String → List (String × Nat) → Nat →
    List (String × Nat) × List (String × Nat) × Nat
  | [], hs, n => (hs, [], n)
  | sym :: rest, hs, n =>
    if (mapGet hs sym).isSome then reconcileAdd rest hs n
    else
      let r := reconcileAdd rest (hs ++ [(sym, n)]) (n + 1)
      (r.1, (sym, n) :: r.2.1, r.2.2)

/-- Second loop of `reconcile` (lines 138-145): for each recorded handler
whose symbol is no longer desired, call `pool.unsubscribe` and drop it. -/
def reconcileRemove (desired : List String) (hs : List (String × Nat)) :
    List (String × Nat) × List (String × Nat) :=
  (hs.filter (fun p => desired.contains p.1),
   hs.filter (fun p => ! desired.contains p.1))

/-- One `reconcile` run over the desired set and current ActiveHandlers. -/
def reconcile (desired : List String) (hs : List (String × Nat)) (n : Nat) :
    RecOut :=
  let a := reconcileAdd desired hs n
  let r := reconcileRemove desired a.1
  ⟨r.1, a.2.1, r.2, a.2.2⟩


/-! Helper lemmas about the JS map and set embedding. -/

theorem mapGet_mapSet_self {α : Type} (m : List (String × α)) (k : String)
    (v : α) : mapGet (mapSet m k v) k = some v := by
  induction m with
  | nil => simp [mapGet, mapSet]
  | cons p m ih =>
    obtain ⟨k1, v1⟩ := p
    by_cases h : k1 = k
    · simp [mapSet, mapGet, h]
    · simp [mapSet, mapGet, h, ih]

theorem mapGet_mapDelete_self {α : Type} (m : List (String × α)) (k : String) :
    mapGet (mapDelete m k) k = none := by
  induction m with
  | nil => rfl
  | cons p m ih =>
    obtain ⟨k1, v1⟩ := p
    by_cases h : k1 = k
    · simpa [mapDelete, List.filter_cons, h] using ih
    · simpa [mapDelete, List.filter_cons, h, mapGet] using ih

theorem mapGet_mapDelete_ne {α : Type} (m : List (String × α)) (k k2 : String)
    (h : k2 ≠ k) : mapGet (mapDelete m k) k2 = mapGet m k2 := by
  induction m with
  | nil => rfl
  | cons p m ih =>
    obtain ⟨k1, v1⟩ := p
    by_cases h1 : k1 = k
    · subst h1
      simp [mapDelete, List.filter_cons, mapGet, Ne.symm h] at ih ⊢
      exact ih
    · by_cases h2 : k1 = k2
      · subst h2
        simp [mapDelete, List.filter_cons, mapGet, h1, h]
      · simp [mapDelete, List.filter_cons, mapGet, h1, h2] at ih ⊢
        exact ih

theorem mapSet_get_self {α : Type} (m : List (String × α)) (k : String)
    (v : α) (h : mapGet m k = some v) : mapSet m k v = m := by
  induction m with
  | nil => simp [mapGet] at h
  | cons p m ih =>
    obtain ⟨k1, v1⟩ := p
    by_cases h1 : k1 = k
    · subst h1
      simp [mapGet] at h
      simp [mapSet, h]
    · simp [mapGet, h1] at h
      simp [mapSet, h1, ih h]

theorem countOcc_removeFirst (l : List String) (a : String) :
    countOcc (removeFirst l a) a = countOcc l a - 1 := by
  induction l with
  | nil => rfl
  | cons x xs ih =>
    by_cases h : x = a
    · simp [removeFirst, countOcc, h]
    · simp [removeFirst, countOcc, h, ih]

theorem countOcc_append_self (l : List String) (a : String) :
    countOcc (l ++ [a]) a = countOcc l a + 1 := by
  induction l with
  | nil => simp [countOcc]
  | cons x xs ih =>
    by_cases h : x = a
    · simp [countOcc, h, ih]
      omega
    · simp [countOcc, h, ih]

theorem forEachDeliver_ok (l : List Listener)
    (h : ∀ x ∈ l, x.throws = false) :
    forEachDeliver l = (l.map Listener.id, false) := by
  induction l with
  | nil => rfl
  | cons x xs ih =>
    have hx : x.throws = false := h x (by simp)
    simp [forEachDeliver, hx, ih (fun y hy => h y (by simp [hy]))]

theorem computePriority_le_two (s : PoolState) (sym : String) :
    computePriority s sym ≤ 2 := by
  unfold computePriority
  split_ifs <;> omega

/-! Base states used by the concrete traces below. An idle pool with the
default configuration (openConcurrency 5, maxPages 30, maxQueue 100,
idleMs 45000). -/

def s0 : PoolState :=
  { symbolToPage := [], symbolToSubs := [], symbolToIdleTimer := [],
    symbolToLast := [], lastUsed := [], warmUntil := [], queuedJobs := [],
    q0 := [], q1 := [], q2 := [], inFlightOpens := 0, openConcurrency := 5,
    maxPages := 30, maxQueue := 100, idleMs := 45000, now := 1000,
    inFlight := [], openedPages := [], pendingTimers := [], nextTimerId := 0,
    nextPageId := 0 }

/-- C1: two subscribes to the same key while the first open is still in
flight start two concurrent opens for that key: `enqueueOpen` de-dupes on
the open-page table and on the queue, but the job is deleted from the
queue when its open starts (line 481) and the table entry is only written
when the open completes (line 397), so the in-flight window is unguarded.
After both opens complete, two pages exist for `X` while the table holds
only the second; the first page is leaked, contradicting the one-page-per-
key contract. -/
theorem C1_double_open_started_while_in_flight :
    ((subscribe 10 "X" ⟨2, false⟩ (subscribe 10 "X" ⟨1, false⟩ s0)).inFlight.filter
        (fun q => q.1 == "X")).length = 2
    ∧ (openDoneOk 10 "X" 1 (openDoneOk 10 "X" 0
        (subscribe 10 "X" ⟨2, false⟩ (subscribe 10 "X" ⟨1, false⟩ s0)))).openedPages
      = [(0, "X"), (1, "X")]
    ∧ (openDoneOk 10 "X" 1 (openDoneOk 10 "X" 0
        (subscribe 10 "X" ⟨2, false⟩ (subscribe 10 "X" ⟨1, false⟩ s0)))).symbolToPage
      = [("X", 1)] := by decide

/-- Invariant-passing specification of the victim scan: the result (if any)
is an unsubscribed open key with minimal `lastUsed` among the unsubscribed
keys of the scanned list; a `none` result means every scanned key has a
subscriber. -/
theorem pickVictimAux_spec (s : PoolState) (l : List (String × Nat)) :
    ∀ (victim : Option String) (oldest : Option Nat),
      (victim = none → oldest = none) →
      (∀ v, victim = some v → subsEmpty s v = true ∧ oldest = some (lastD s v)) →
      (∀ v, pickVictimAux s l victim oldest = some v →
          subsEmpty s v = true
          ∧ (victim = some v ∨ ∃ p, (v, p) ∈ l)
          ∧ (∀ o, oldest = some o → lastD s v ≤ o)
          ∧ (∀ k p, (k, p) ∈ l → subsEmpty s k = true → lastD s v ≤ lastD s k))
      ∧ (pickVictimAux s l victim oldest = none →
          victim = none ∧ ∀ k p, (k, p) ∈ l → subsEmpty s k = false) := by
  induction l with
  | nil =>
    intro victim oldest hvo hv
    constructor
    · intro v hr
      simp only [pickVictimAux] at hr
      obtain ⟨h1, h2⟩ := hv v hr
      refine ⟨h1, Or.inl hr, ?_, ?_⟩
      · intro o ho
        rw [h2] at ho
        injection ho with ho
        omega
      · intro k p hk
        simp at hk
    · intro hr
      simp only [pickVictimAux] at hr
      exact ⟨hr, fun k p hk => by simp at hk⟩
  | cons hd tl ih =>
    obtain ⟨sym, pg⟩ := hd
    intro victim oldest hvo hv
    by_cases hc : (subsEmpty s sym && ltOpt (lastD s sym) oldest) = true
    · obtain ⟨hse, hlt⟩ := Bool.and_eq_true_iff.mp hc
      have step : pickVictimAux s ((sym, pg) :: tl) victim oldest
          = pickVictimAux s tl (some sym) (some (lastD s sym)) := by
        simp [pickVictimAux, hc]
      have IH := ih (some sym) (some (lastD s sym))
        (fun h => by simp at h)
        (fun v hvv => by
          injection hvv with hvv
          subst hvv
          exact ⟨hse, rfl⟩)
      constructor
      · intro v hr
        rw [step] at hr
        obtain ⟨e1, e2, e3, e4⟩ := IH.1 v hr
        refine ⟨e1, ?_, ?_, ?_⟩
        · rcases e2 with h | ⟨p, hp⟩
          · injection h with h
            subst h
            exact Or.inr ⟨pg, List.mem_cons_self _ _⟩
          · exact Or.inr ⟨p, List.mem_cons_of_mem _ hp⟩
        · intro o ho
          have hb : lastD s v ≤ lastD s sym := e3 _ rfl
          have hso : lastD s sym < o := by
            rw [ho] at hlt
            simpa [ltOpt] using hlt
          omega
        · intro k p hk hke
          rcases List.mem_cons.mp hk with h | h
          · rw [Prod.mk.injEq] at h
            obtain ⟨h1, h2⟩ := h
            subst h1
            exact e3 _ rfl
          · exact e4 k p h hke
      · intro hr
        rw [step] at hr
        obtain ⟨hnone, _⟩ := IH.2 hr
        simp at hnone
    · have hcf : (subsEmpty s sym && ltOpt (lastD s sym) oldest) = false :=
        Bool.eq_false_iff.mpr hc
      have step : pickVictimAux s ((sym, pg) :: tl) victim oldest
          = pickVictimAux s tl victim oldest := by
        simp [pickVictimAux, hcf]
      have IH := ih victim oldest hvo hv
      constructor
      · intro v hr
        rw [step] at hr
        obtain ⟨e1, e2, e3, e4⟩ := IH.1 v hr
        refine ⟨e1, ?_, e3, ?_⟩
        · rcases e2 with h | ⟨p, hp⟩
          · exact Or.inl h
          · exact Or.inr ⟨p, List.mem_cons_of_mem _ hp⟩
        · intro k p hk hke
          rcases List.mem_cons.mp hk with h | h
          · rw [Prod.mk.injEq] at h
            obtain ⟨h1, h2⟩ := h
            subst h1
            have hlf : ltOpt (lastD s k) oldest = false := by
              rw [hke] at hcf
              simpa using hcf
            cases oldest with
            | none => simp [ltOpt] at hlf
            | some o =>
              have hvle : lastD s v ≤ o := e3 o rfl
              have hol : ¬ lastD s k < o := by simpa [ltOpt] using hlf
              omega
          · exact e4 k p h hke
      · intro hr
        rw [step] at hr
        obtain ⟨hvn, htl⟩ := IH.2 hr
        refine ⟨hvn, ?_⟩
        intro k p hk
        rcases List.mem_cons.mp hk with h | h
        · rw [Prod.mk.injEq] at h
          obtain ⟨h1, h2⟩ := h
          subst h1
          have ho := hvo hvn
          rw [ho] at hcf
          simpa [ltOpt] using hcf
        · exact htl k p h

/-- C2 (amended): when the capacity check fires, any victim chosen by the
scan of lines 170-179 is an unsubscribed open key with minimal `lastUsed`
among the unsubscribed open keys, so a key with a subscriber is never
evicted; but when no unsubscribed open key exists, nothing is evicted and
the open still proceeds (the page table is untouched and the new page is
created), so the cap can be exceeded rather than the open being refused. -/
theorem C2_eviction_amended (s : PoolState) (sym : String) :
    (∀ v, pickVictim s = some v →
        subsEmpty s v = true
        ∧ (∃ p, (v, p) ∈ s.symbolToPage)
        ∧ (∀ k p, (k, p) ∈ s.symbolToPage → subsEmpty s k = true →
            lastD s v ≤ lastD s k))
    ∧ (pickVictim s = none →
        (∀ k p, (k, p) ∈ s.symbolToPage → subsEmpty s k = false)
        ∧ (openPageStart s sym).symbolToPage = s.symbolToPage
        ∧ (openPageStart s sym).inFlight = s.inFlight ++ [(sym, s.nextPageId)]) := by
  have H := pickVictimAux_spec s s.symbolToPage none none (fun _ => rfl)
    (fun v h => by simp at h)
  constructor
  · intro v hr
    obtain ⟨e1, e2, _, e4⟩ := H.1 v hr
    refine ⟨e1, ?_, e4⟩
    rcases e2 with h | h
    · simp at h
    · exact h
  · intro hr
    obtain ⟨_, htl⟩ := H.2 hr
    have hopen : openPageStart s sym =
        { s with
          inFlight := s.inFlight ++ [(sym, s.nextPageId)],
          openedPages := s.openedPages ++ [(s.nextPageId, sym)],
          nextPageId := s.nextPageId + 1 } := by
      unfold openPageStart
      rw [hr]
      split <;> rfl
    rw [hopen]
    exact ⟨htl, rfl, rfl⟩

/-- State at capacity (maxPages 1) whose only open key has a subscriber. -/
def sC2 : PoolState :=
  { s0 with
    maxPages := 1, symbolToPage := [("A", 0)],
    symbolToSubs := [("A", [⟨1, false⟩])], lastUsed := [("A", 10)],
    openedPages := [(0, "A")], nextPageId := 1 }

/-- C2 (counterexample to the claim as stated): with the pool at its
capacity ceiling of 1 and the only open key subscribed, there is no
eviction victim, yet a subscribe to a new key is not refused: the open
runs and completes, leaving 2 open pages, above the ceiling. -/
theorem C2_cap_exceeded_counterexample :
    sC2.maxPages = 1 ∧ subsCount sC2 "A" = 1 ∧ pickVictim sC2 = none
    ∧ (openDoneOk 10 "B" 1 (subscribe 10 "B" ⟨2, false⟩ sC2)).symbolToPage
      = [("A", 0), ("B", 1)] := by decide

/-- State with two unsubscribed open keys (lastUsed 5 and 9) and one
subscribed key, for the amended-eviction witness. -/
def sW2 : PoolState :=
  { s0 with
    maxPages := 2, symbolToPage := [("A", 1), ("B", 2), ("C", 3)],
    symbolToSubs := [("B", [⟨1, false⟩])],
    lastUsed := [("A", 5), ("B", 7), ("C", 9)],
    openedPages := [(1, "A"), (2, "B"), (3, "C")], nextPageId := 4 }

/-- C2 witness: on `sW2` the scan picks the unsubscribed key `A`, which is
unsubscribed and no newer than the other unsubscribed key `C`. -/
theorem C2_eviction_amended_witness :
    subsEmpty sW2 "A" = true ∧ lastD sW2 "A" ≤ lastD sW2 "C" := by
  have h := (C2_eviction_amended sW2 "Z").1 "A" (by decide)
  exact ⟨h.1, h.2.2 "C" 3 (by decide) (by decide)⟩

/-- Queue state with a Hot entry `A` already queued and a Cold entry `B`
(whose key has since gained a subscriber) queued at priority 2. -/
def s3c : PoolState :=
  { s0 with
    symbolToSubs := [("A", [⟨8, false⟩]), ("B", [⟨9, false⟩])],
    queuedJobs := [("A", ⟨"A", 0, 1000⟩), ("B", ⟨"B", 2, 1000⟩)],
    q0 := ["A"], q2 := ["B"] }

/-- C3 (counterexample to the claim as stated): promoting the queued Cold
key `B` to Hot appends it at the tail of the Hot bucket (line 418 uses
`push`), behind the already-queued `A`; the claim says it is reinserted at
the head. -/
theorem C3_tail_not_head_counterexample :
    mapGet s3c.queuedJobs "B" = some ⟨"B", 2, 1000⟩
    ∧ (enqueueCore "B" 0 s3c).1.q0 = ["A", "B"]
    ∧ (enqueueCore "B" 0 s3c).1.q0.head? = some "A"
    ∧ (enqueueCore "B" 0 s3c).1.q2 = [] := by decide

/-- C3 (amended): re-requesting a queued key never duplicates it — if each
bucket holds the key at most once, then after a promotion the key occurs
exactly once across all buckets, spliced out of its old bucket and appended
at the tail (not the head) of the more urgent bucket, with the stored job
updated to the promoted priority; and when the new effective priority is
not strictly more urgent, the queue is left completely unchanged. -/
theorem C3_promotion_amended (s : PoolState) (sym : String) (req : Nat)
    (job : Job)
    (ho : mapGet s.symbolToPage sym = none)
    (hq : mapGet s.queuedJobs sym = some job)
    (h0 : countOcc s.q0 sym ≤ 1) (h1 : countOcc s.q1 sym ≤ 1)
    (h2 : countOcc s.q2 sym ≤ 1) :
    (effPriority s sym req < job.priority →
        countOcc (enqueueCore sym req s).1.q0 sym
          + countOcc (enqueueCore sym req s).1.q1 sym
          + countOcc (enqueueCore sym req s).1.q2 sym = 1
        ∧ getBucket (enqueueCore sym req s).1 (effPriority s sym req)
            = removeFirst (getBucket s (effPriority s sym req)) sym ++ [sym]
        ∧ mapGet (enqueueCore sym req s).1.queuedJobs sym
            = some ⟨job.symbol, effPriority s sym req, job.enqueuedAt⟩
        ∧ (enqueueCore sym req s).2 = false)
    ∧ (¬ effPriority s sym req < job.priority →
        enqueueCore sym req s = (s, false)) := by
  have hle : effPriority s sym req ≤ 2 :=
    le_trans (Nat.min_le_right _ _) (computePriority_le_two s sym)
  constructor
  · intro hp
    have hcore : enqueueCore sym req s =
        (pushBucket
          (spliceAll
            { s with queuedJobs :=
                mapSet s.queuedJobs sym ⟨job.symbol, effPriority s sym req, job.enqueuedAt⟩ }
            sym)
          (effPriority s sym req) sym, false) := by
      simp [enqueueCore, ho, hq, hp]
    rw [hcore]
    have h3 : effPriority s sym req = 0 ∨ effPriority s sym req = 1
        ∨ effPriority s sym req = 2 := by omega
    rcases h3 with h3 | h3 | h3 <;> rw [h3] <;>
      refine ⟨?_, by simp [pushBucket, spliceAll, getBucket],
        by simp [pushBucket, spliceAll, mapGet_mapSet_self], rfl⟩ <;>
      simp [pushBucket, spliceAll, countOcc_append_self, countOcc_removeFirst] <;>
      omega
  · intro hp
    simp [enqueueCore, ho, hq, hp]

/-- C3 witness: instantiating the amended promotion theorem on `s3c`,
where `B` is promoted from priority 2 to effective priority 0. -/
theorem C3_promotion_amended_witness :
    countOcc (enqueueCore "B" 0 s3c).1.q0 "B"
      + countOcc (enqueueCore "B" 0 s3c).1.q1 "B"
      + countOcc (enqueueCore "B" 0 s3c).1.q2 "B" = 1
    ∧ getBucket (enqueueCore "B" 0 s3c).1 (effPriority s3c "B" 0)
        = removeFirst (getBucket s3c (effPriority s3c "B" 0)) "B" ++ ["B"] := by
  have h := (C3_promotion_amended s3c "B" 0 ⟨"B", 2, 1000⟩ (by decide) (by decide)
    (by decide) (by decide) (by decide)).1 (by decide)
  exact ⟨h.1, h.2.1⟩

/-- Pool with a failing in-flight open for the subscribed key `X`, four
other in-flight opens saturating the concurrency ceiling, and a Hot queue
entry `Y`. -/
def sC4 : PoolState :=
  { s0 with
    symbolToSubs := [("X", [⟨1, false⟩]), ("Y", [⟨2, false⟩])],
    queuedJobs := [("Y", ⟨"Y", 0, 1000⟩)], q0 := ["Y"],
    inFlightOpens := 5, inFlight := [("X", 7)], nextPageId := 8 }

/-- C4 (counterexample to the claim as stated): after the open for the
still-subscribed key `X` fails, `X` is re-enqueued — but the catch handler
passes requested priority 1 to `enqueueOpen`, which clamps it with
`computePriority` (0, since `X` has a subscriber), so the retry entry sits
in the Hot bucket with priority 0, not in the Warm bucket at priority 1. -/
theorem C4_retry_priority_counterexample :
    subsCount sC4 "X" = 1
    ∧ (openDoneFail 10 "X" 7 sC4).q0 = ["X"]
    ∧ (openDoneFail 10 "X" 7 sC4).q1 = []
    ∧ mapGet (openDoneFail 10 "X" 7 sC4).queuedJobs "X"
      = some ⟨"X", 0, 1000⟩ := by decide

/-- C4 (amended): the catch handler of a failed open drops the key when it
has no subscriber, and otherwise re-enqueues it exactly once with requested
priority 1 — which, because the key has a subscriber, is clamped to
effective priority 0, so the retry entry carries priority 0 and is appended
once to the Hot bucket (the other buckets are untouched); the failure is
fully absorbed by the handler and never propagated to `subscribe` callers. -/
theorem C4_retry_amended (fuel : Nat) (s : PoolState) (sym : String) :
    (subsCount s sym = 0 → catchHandler fuel sym s = s)
    ∧ (0 < subsCount s sym → mapGet s.symbolToPage sym = none →
        mapGet s.queuedJobs sym = none → totalQueued s < s.maxQueue →
          catchHandler fuel sym s = drainQueue fuel (enqueueCore sym 1 s).1
          ∧ mapGet (enqueueCore sym 1 s).1.queuedJobs sym = some ⟨sym, 0, s.now⟩
          ∧ (enqueueCore sym 1 s).1.q0 = s.q0 ++ [sym]
          ∧ (enqueueCore sym 1 s).1.q1 = s.q1
          ∧ (enqueueCore sym 1 s).1.q2 = s.q2) := by
  constructor
  · intro h
    simp [catchHandler, h]
  · intro hs ho hq hf
    have hpri : effPriority s sym 1 = 0 := by
      simp [effPriority, computePriority, hs]
    have hcore : enqueueCore sym 1 s =
        (pushBucket
          { s with queuedJobs := mapSet s.queuedJobs sym ⟨sym, 0, s.now⟩ }
          0 sym, true) := by
      simp [enqueueCore, ho, hq, hpri, Nat.not_le.mpr hf]
    refine ⟨?_, ?_, ?_, ?_, ?_⟩
    · simp [catchHandler, hs, enqueueOpen, hcore]
    · rw [hcore]
      exact mapGet_mapSet_self _ _ _
    · simp [hcore, pushBucket]
    · simp [hcore, pushBucket]
    · simp [hcore, pushBucket]

/-- C4 witness: the amended retry behaviour instantiated on `sC4`. -/
theorem C4_retry_amended_witness :
    catchHandler 10 "X" sC4 = drainQueue 10 (enqueueCore "X" 1 sC4).1
    ∧ mapGet (enqueueCore "X" 1 sC4).1.queuedJobs "X" = some ⟨"X", 0, 1000⟩
    ∧ (enqueueCore "X" 1 sC4).1.q0 = ["Y", "X"] := by
  have h := (C4_retry_amended 10 sC4 "X").2 (by decide) (by decide) (by decide)
    (by decide)
  exact ⟨h.1, h.2.1, h.2.2.1⟩

/-- C5: the dequeue of the drain loop is strict-priority with FIFO inside a
bucket — it always shifts the head of the Hot bucket when one exists, else
the head of the Warm bucket, else the head of the Cold bucket, so a Hot
entry is always taken before any Warm or Cold entry regardless of enqueue
order. -/
theorem C5_priority_order (s : PoolState) :
    (∀ x xs, s.q0 = x :: xs → nextJobSymbol s = (some x, { s with q0 := xs }))
    ∧ (∀ y ys, s.q0 = [] → s.q1 = y :: ys →
        nextJobSymbol s = (some y, { s with q1 := ys }))
    ∧ (∀ z zs, s.q0 = [] → s.q1 = [] → s.q2 = z :: zs →
        nextJobSymbol s = (some z, { s with q2 := zs }))
    ∧ (s.q0 = [] → s.q1 = [] → s.q2 = [] → nextJobSymbol s = (none, s)) := by
  refine ⟨?_, ?_, ?_, ?_⟩ <;> intros <;> simp_all [nextJobSymbol]

/-- Queue holding the Cold entry `C` (enqueued first) and the Hot entry
`H`. -/
def s5 : PoolState := { s0 with q0 := ["H"], q2 := ["C"] }

/-- C5 witness: with one Cold entry queued before one Hot entry, the next
dequeued job is the Hot one. -/
theorem C5_priority_order_witness :
    nextJobSymbol s5 = (some "H", { s5 with q0 := [] }) :=
  (C5_priority_order s5).1 "H" [] rfl

/-- Pool with key `X` subscribed by a throwing listener (id 1) followed by
a well-behaved listener (id 2). -/
def s6 : PoolState := { s0 with symbolToSubs := [("X", [⟨1, true⟩, ⟨2, false⟩])] }

/-- C6: a listener exception during fanout aborts delivery — with
subscribers [L1 (throws), L2] a push of `(X, "100")` invokes only L1, the
exception escapes the push handler, and L2 never receives the event (the
`forEach` of line 224 has no per-listener isolation); the last-value cache
is still updated because it is written before the fanout. -/
theorem C6_listener_exception_aborts_fanout :
    mapGet s6.symbolToSubs "X" = some [⟨1, true⟩, ⟨2, false⟩]
    ∧ (notifyPrice s6 "X" "100").2.1 = [1]
    ∧ (notifyPrice s6 "X" "100").2.2 = true
    ∧ mapGet (notifyPrice s6 "X" "100").1.symbolToLast "X" = some "100" := by
  decide

/-- Pool with key `X` subscribed by one listener and a cached value. -/
def s7 : PoolState :=
  { s0 with symbolToSubs := [("X", [⟨1, false⟩])], symbolToLast := [("X", "100")] }

/-- C7 (counterexample to the claim as stated): a push whose value is the
empty string is silently ignored by the guard of line 214 — the last value
is not overwritten and no listener is notified, so "every push event ...
overwrites LastValue and is delivered" fails for blank values. -/
theorem C7_empty_push_counterexample :
    subsCount s7 "X" = 1
    ∧ notifyPrice s7 "X" "" = (s7, [], false)
    ∧ getLastPrice s7 "X" = some "100" := by decide

/-- C7 (amended): for every push whose value is nonblank (does not trim to
the empty string), assuming the listeners return normally (see C6), the
handler first overwrites the last value and `lastUsed` and then delivers
the event to every listener in the current subscriber set, in insertion
order, with no exception escaping. -/
theorem C7_push_amended (s : PoolState) (k v : String) (hk : upcase k = k)
    (hv : trimStr v ≠ "")
    (hnt : ∀ x ∈ (mapGet s.symbolToSubs k).getD [], x.throws = false) :
    getLastPrice (notifyPrice s k v).1 k = some v
    ∧ (notifyPrice s k v).2.1
      = ((mapGet s.symbolToSubs k).getD []).map Listener.id
    ∧ (notifyPrice s k v).2.2 = false
    ∧ mapGet (notifyPrice s k v).1.lastUsed k = some s.now := by
  cases hsubs : mapGet s.symbolToSubs k with
  | none =>
    simp [notifyPrice, hv, hsubs, getLastPrice, hk, mapGet_mapSet_self]
  | some l =>
    have hl : forEachDeliver l = (l.map Listener.id, false) :=
      forEachDeliver_ok l (by simpa [hsubs] using hnt)
    simp [notifyPrice, hv, hsubs, hl, getLastPrice, hk, mapGet_mapSet_self]

/-- Pool matching scenario B after the first push: `X` carries listeners
L1 and L2 and cached value "100". -/
def s7w : PoolState :=
  { s0 with
    symbolToSubs := [("X", [⟨1, false⟩, ⟨2, false⟩])],
    symbolToLast := [("X", "100")] }

/-- C7 witness: pushing `(X, "101")` overwrites the cached "100" with
"101" and delivers to both L1 and the later-added L2. -/
theorem C7_push_amended_witness :
    getLastPrice (notifyPrice s7w "X" "101").1 "X" = some "101"
    ∧ (notifyPrice s7w "X" "101").2.1 = [1, 2]
    ∧ (notifyPrice s7w "X" "101").2.2 = false := by
  have h := C7_push_amended s7w "X" "101" (by decide) (by decide) (by decide)
  exact ⟨h.1, h.2.1, h.2.2.1⟩

/-- C8 (amended): unsubscribing a listener that is not in the key's
subscriber set never errors, and is a strict no-op when the key has no
subscriber-set entry or when the set is nonempty; but when the key's set
exists and is already empty (as after a previous full unsubscribe), the
call re-arms the warm-until deadline and schedules an additional
idle-close timer, overwriting the stored timer handle without cancelling
the previously scheduled one. -/
theorem C8_unsubscribe_amended (s : PoolState) (k : String) (L : Listener)
    (hk : upcase k = k) :
    (mapGet s.symbolToSubs k = none → unsubscribe k L s = s)
    ∧ (∀ l, mapGet s.symbolToSubs k = some l → L ∉ l → l ≠ [] →
        unsubscribe k L s = s)
    ∧ (mapGet s.symbolToSubs k = some [] →
        (unsubscribe k L s).warmUntil = mapSet s.warmUntil k (s.now + s.idleMs)
        ∧ (unsubscribe k L s).pendingTimers
            = s.pendingTimers ++ [(s.nextTimerId, k, s.now + s.idleMs)]
        ∧ (unsubscribe k L s).symbolToIdleTimer
            = mapSet s.symbolToIdleTimer k s.nextTimerId
        ∧ (unsubscribe k L s).nextTimerId = s.nextTimerId + 1) := by
  refine ⟨?_, ?_, ?_⟩
  · intro h
    simp [unsubscribe, hk, h]
  · intro l hl hL hne
    have hfil : l.filter (fun x => x != L) = l :=
      List.filter_eq_self.mpr (fun a ha => by
        simp only [bne_iff_ne, ne_eq]
        exact fun he => hL (he ▸ ha))
    have hlen : ¬ l.length = 0 := by
      simpa [List.length_eq_zero] using hne
    simp [unsubscribe, hk, hl, hfil, hlen, mapSet_get_self s.symbolToSubs k l hl]
  · intro hl
    simp [unsubscribe, hk, hl]

/-- Pool whose key `X` has an empty (but present) subscriber set, the warm
deadline and idle timer left by a previous full unsubscribe. -/
def sE : PoolState :=
  { s0 with
    symbolToSubs := [("X", [])], warmUntil := [("X", 100)],
    pendingTimers := [(0, "X", 100)], symbolToIdleTimer := [("X", 0)],
    now := 50, idleMs := 60, nextTimerId := 1 }

/-- C8 (counterexample to the claim as stated): unsubscribing the absent
listener L7 from `X` (whose set exists and is empty) changes pool state:
the warm-until deadline moves from 100 to 110 and a second idle-close
timer is scheduled while the first one keeps pending. -/
theorem C8_empty_set_counterexample :
    subsCount sE "X" = 0
    ∧ (unsubscribe "X" ⟨7, false⟩ sE).warmUntil ≠ sE.warmUntil
    ∧ (unsubscribe "X" ⟨7, false⟩ sE).pendingTimers.length = 2
    ∧ unsubscribe "X" ⟨7, false⟩ sE ≠ sE := by decide

/-- C8 witness: the amended statement instantiated on `sE` — the empty-set
case re-arms the deadline and adds a timer, while an unknown key is a
no-op. -/
theorem C8_unsubscribe_amended_witness :
    (unsubscribe "X" ⟨7, false⟩ sE).warmUntil = [("X", 110)]
    ∧ (unsubscribe "X" ⟨7, false⟩ sE).pendingTimers
      = [(0, "X", 100), (1, "X", 110)]
    ∧ unsubscribe "Y" ⟨7, false⟩ sE = sE := by
  have h := (C8_unsubscribe_amended sE "X" ⟨7, false⟩ (by decide)).2.2 (by decide)
  have h2 := (C8_unsubscribe_amended sE "Y" ⟨7, false⟩ (by decide)).1 (by decide)
  exact ⟨h.1.trans (by decide), h.2.1.trans (by decide), h2⟩

/-- C9: reconciling ActiveHandlers {A ↦ hA, B ↦ hB} against desired keys
{B, C} issues exactly one `pool.subscribe` (for C, with the freshly created
handler) and exactly one `pool.unsubscribe` (for A, with the recorded
handler hA), and the entry for B is kept untouched. -/
theorem C9_reconcile_diff (a b c : String) (ha hb n : Nat)
    (hab : a ≠ b) (hac : a ≠ c) (hbc : b ≠ c) :
    reconcile [b, c] [(a, ha), (b, hb)] n
      = ⟨[(b, hb), (c, n)], [(c, n)], [(a, ha)], n + 1⟩ := by
  simp [reconcile, reconcileAdd, reconcileRemove, mapGet,
    hab, hac, hbc, Ne.symm hab, Ne.symm hac, Ne.symm hbc]

/-- C9 witness: the reconciliation diff on concrete keys and handler ids. -/
theorem C9_reconcile_diff_witness :
    reconcile ["B", "C"] [("A", 10), ("B", 11)] 5
      = ⟨[("B", 11), ("C", 5)], [("C", 5)], [("A", 10)], 6⟩ :=
  C9_reconcile_diff "A" "B" "C" 10 11 5 (by decide) (by decide) (by decide)

/-- C10: closing a key's page removes the key from the open-page table,
the idle-timer table, and the lastUsed map, leaves the cached last value
intact (`getLastPrice` still answers it), and does not change any other
key's entries in those maps. -/
theorem C10_close_frame (s : PoolState) (k v : String)
    (hk : upcase k = k) (hv : mapGet s.symbolToLast k = some v) :
    getLastPrice (closePage s k) k = some v
    ∧ (closePage s k).symbolToLast = s.symbolToLast
    ∧ mapGet (closePage s k).symbolToPage k = none
    ∧ mapGet (closePage s k).symbolToIdleTimer k = none
    ∧ mapGet (closePage s k).lastUsed k = none
    ∧ (∀ k2, k2 ≠ k →
        mapGet (closePage s k).symbolToPage k2 = mapGet s.symbolToPage k2
        ∧ mapGet (closePage s k).symbolToIdleTimer k2
          = mapGet s.symbolToIdleTimer k2
        ∧ mapGet (closePage s k).lastUsed k2 = mapGet s.lastUsed k2) := by
  have h1 : (closePage s k).symbolToLast = s.symbolToLast := by
    cases hp : mapGet s.symbolToPage k <;> simp [closePage, hp]
  have h2 : (closePage s k).symbolToPage = mapDelete s.symbolToPage k := by
    cases hp : mapGet s.symbolToPage k <;> simp [closePage, hp]
  have h3 : (closePage s k).symbolToIdleTimer = mapDelete s.symbolToIdleTimer k := by
    cases hp : mapGet s.symbolToPage k <;> simp [closePage, hp]
  have h4 : (closePage s k).lastUsed = mapDelete s.lastUsed k := by
    cases hp : mapGet s.symbolToPage k <;> simp [closePage, hp]
  refine ⟨?_, h1, ?_, ?_, ?_, ?_⟩
  · unfold getLastPrice
    rw [hk, h1, hv]
  · rw [h2]
    exact mapGet_mapDelete_self _ _
  · rw [h3]
    exact mapGet_mapDelete_self _ _
  · rw [h4]
    exact mapGet_mapDelete_self _ _
  · intro k2 hne
    exact ⟨by rw [h2]; exact mapGet_mapDelete_ne _ _ _ hne,
      by rw [h3]; exact mapGet_mapDelete_ne _ _ _ hne,
      by rw [h4]; exact mapGet_mapDelete_ne _ _ _ hne⟩

/-- Pool with two open keys `X` and `Y`, caches and timer for `X`. -/
def sX : PoolState :=
  { s0 with
    symbolToPage := [("X", 0), ("Y", 1)],
    symbolToIdleTimer := [("X", 3)], lastUsed := [("X", 5), ("Y", 6)],
    symbolToLast := [("X", "9"), ("Y", "8")],
    openedPages := [(0, "X"), (1, "Y")], nextPageId := 2 }

/-- C10 witness: closing `X` keeps its cached value readable, keeps `Y`'s
page entry, and removes `X` from the page table. -/
theorem C10_close_frame_witness :
    getLastPrice (closePage sX "X") "X" = some "9"
    ∧ mapGet (closePage sX "X").symbolToPage "Y" = some 1
    ∧ mapGet (closePage sX "X").symbolToPage "X" = none := by
  have h := C10_close_frame sX "X" "9" (by decide) (by decide)
  exact ⟨h.1, ((h.2.2.2.2.2 "Y" (by decide)).1).trans (by decide), h.2.2.1⟩

end PricePool
